import Mathlib

/-!
# Verification of the tauri-specta binding builder (`src/builder.rs`)

A shallow embedding of the `Builder` type and its operations:
`plugin_name`, `commands`, `events`, `ty`, `constant`, `invoke_handler`,
`mount_events`, `export_ts` and `export_js_doc`.

External collaborators (`specta`'s `TypeMap` / `NamedType` machinery,
`specta_typescript`'s exporter, the crate's `internal::Commands` /
`internal::Events` and `js_ts::render_all_parts`, the file system and the
external formatter) are modelled from the specification, since their code is
not part of the file under audit.  The control flow and data flow of
`Builder` itself follow `src/builder.rs` line by line.
-/

set_option autoImplicit false
set_option linter.unusedVariables false

namespace TauriSpecta

/-! ## Association lists

`specta::TypeMap` is a key-ordered map from stable type ids to named data
types, and `Builder.constants` is a `HashMap` keyed by constant name.  Both
are modelled as association lists with replace-or-append insertion, which
gives a deterministic iteration order. -/

/-- Insert `(k, v)` into an association list: replace the first entry whose
key is `k` in place, or append at the end when `k` is absent. -/
def alistInsert {κ α : Type} [DecidableEq κ] (k : κ) (v : α) :
    List (κ × α) → List (κ × α)
  | [] => [(k, v)]
  | p :: rest => if p.1 = k then (k, v) :: rest else p :: alistInsert k v rest

/-- Look up the first entry with key `k`. -/
def alistLookup {κ α : Type} [DecidableEq κ] (k : κ) :
    List (κ × α) → Option α
  | [] => none
  | p :: rest => if p.1 = k then some p.2 else alistLookup k rest

/-- Insert every pair of `l` (left to right) into `m`. -/
def alistInsertAll {κ α : Type} [DecidableEq κ] (l m : List (κ × α)) :
    List (κ × α) :=
  l.foldl (fun acc p => alistInsert p.1 p.2 acc) m

/-- Number of entries with key `k`. -/
def countKey {κ α : Type} [DecidableEq κ] (k : κ) : List (κ × α) → Nat
  | [] => 0
  | p :: rest => (if p.1 = k then 1 else 0) + countKey k rest

/-! ## Data model

`specta::datatype::DataType` is external; the spec's `TypeDefinition`
(§3) is a record of named fields whose types are primitives or references
to other `TypeId`s, never inlined definitions (§9). -/

/-- Modelled from the spec: a field type is a primitive, a bigint-like
primitive the reference TypeScript exporter rejects by default, or a
reference to another type by its stable id (§3, §9: "always render by
stable name reference"). -/
inductive TypeRef : Type where
  | prim (name : String)
  | bigint
  | ref (sid : Nat)
deriving DecidableEq, Repr

/-- Modelled from the spec: the structural shape of a type (§3
`TypeDefinition`): a primitive, a record of named fields, or a reference
to another type id. -/
inductive DataType : Type where
  | prim (name : String)
  | bigint
  | record (fields : List (String × TypeRef))
  | reference (sid : Nat)
deriving DecidableEq, Repr

/-- Modelled from the spec: `specta::datatype::NamedDataType`, a type
definition together with its export name. -/
structure NamedDataType : Type where
  name : String
  dt : DataType
deriving DecidableEq, Repr

/-- `specta::TypeMap`: stable type id keys to named data types. -/
abbrev TypeMap : Type := List (Nat × NamedDataType)

/-- `serde_json::Value`, the interchange-format value a constant is
serialized to. -/
inductive Value : Type where
  | null
  | bool (b : Bool)
  | num (n : Int)
  | str (s : String)
  | arr (xs : List Value)
  | obj (fields : List (String × Value))
deriving Repr

mutual

/-- Serialize a `Value` back to interchange-format (JSON) text; used when a
constant's precomputed value is embedded inline in an accessor (§4.6 (e)). -/
def renderValue : Value → String
  | .null => "null"
  | .bool b => cond b "true" "false"
  | .num n => toString n
  | .str s => "\"" ++ s ++ "\""
  | .arr xs => "[" ++ renderValueList xs ++ "]"
  | .obj fs => "\x7b" ++ renderValueFields fs ++ "\x7d"

/-- Render a comma-separated list of array elements. -/
def renderValueList : List Value → String
  | [] => ""
  | [x] => renderValue x
  | x :: y :: rest => renderValue x ++ "," ++ renderValueList (y :: rest)

/-- Render a comma-separated list of object fields. -/
def renderValueFields : List (String × Value) → String
  | [] => ""
  | [p] => "\"" ++ p.1 ++ "\":" ++ renderValue p.2
  | p :: q :: rest =>
      "\"" ++ p.1 ++ "\":" ++ renderValue p.2 ++ "," ++ renderValueFields (q :: rest)

end

/-! ## The builder's collaborators -/

/-- Modelled from the spec: one entry of `internal::Commands` — a command
descriptor (§3 `CommandDescriptor`), reduced to its name and the named
types its parameter/return types register into the `TypeMap` when the
commands' type-extraction function runs (§4.3). -/
structure CommandDef : Type where
  name : String
  regs : List (Nat × NamedDataType)
deriving DecidableEq, Repr

/-- Modelled from the spec: `internal::Commands<R>` — the registered
command set handed to `Builder::commands` (§4.3 Command Table; the
runtime invoke handler in field `.0` is irrelevant to export and elided). -/
structure Commands : Type where
  defs : List CommandDef
deriving DecidableEq, Repr

/-- Modelled from the spec: `internal::Events` — field `.0` is the
collection registered on mount, field `.1` the per-event metadata (name
and payload type id) consumed by rendering (§4.4). -/
structure Events : Type where
  collection : List String
  meta : List (String × Nat)
deriving DecidableEq, Repr

/-- Modelled from the spec: the part of a `T : NamedType` used by
`Builder::ty` — its stable id `T::sid()`, the named data type returned by
`T::definition_named_data_type`, and the dependency registrations that
call performs on the `TypeMap` as a side effect (§4.1). -/
structure TyDesc : Type where
  sid : Nat
  ndt : NamedDataType
  defRegs : List (Nat × NamedDataType)
deriving DecidableEq, Repr

/-- Modelled from the spec: the part of a `T : Serialize + Type` used by
`Builder::constant` — the data type `T::reference(&mut types, &[]).inner`
and the nested named types that `reference` registers into the `TypeMap`
as a side effect (§4.2). -/
structure ConstTy : Type where
  refInner : DataType
  refRegs : List (Nat × NamedDataType)
deriving DecidableEq, Repr

/-- Result of a Rust call that may not return normally: `diverged msg` is
an aborted execution (a `panic`, as produced by `expect` or `todo`). -/
inductive Outcome (α : Type) : Type where
  | diverged (msg : String)
  | ok (a : α)

/-! ## The `Builder` struct (`src/builder.rs` lines 18-24) -/

/-- `Builder<R>`: plugin name, commands, events, type map and constant
map (`HashMap<Cow<str>, (DataType, serde_json::Value)>`). -/
structure Builder : Type where
  plugin_name : Option String
  commands : Commands
  events : Events
  types : TypeMap
  constants : List (String × (DataType × Value))

/-- `Builder::default` / `Builder::new`: all tables empty. -/
def Builder.new : Builder :=
  { plugin_name := none
    commands := ⟨[]⟩
    events := ⟨[], []⟩
    types := []
    constants := [] }

/-- `Builder::plugin_name`: set the plugin name. -/
def Builder.pluginNameSet (b : Builder) (n : String) : Builder :=
  { b with plugin_name := some n }

/-- `Builder::commands`: register commands, overwriting any previously
registered commands (`Self { commands, ..self }`). -/
def Builder.setCommands (b : Builder) (commands : Commands) : Builder :=
  { b with commands := commands }

/-- `Builder::events`: register events, overwriting any previously
registered events (`Self { events, ..self }`). -/
def Builder.setEvents (b : Builder) (events : Events) : Builder :=
  { b with events := events }

/-- `Builder::ty`: run `T::definition_named_data_type(&mut self.types)`
(which registers the type's dependencies) and then
`self.types.insert(T::sid(), dt)`. -/
def Builder.ty (b : Builder) (t : TyDesc) : Builder :=
  { b with types := alistInsert t.sid t.ndt (alistInsertAll t.defRegs b.types) }

/-- The successful tail of `Builder::constant`: insert
`(k, (T::reference(&mut self.types, &[]).inner, v))` into the constant
map, registering the value type's dependencies into the type map. -/
def Builder.constantOk (b : Builder) (k : String) (t : ConstTy) (v : Value) : Builder :=
  { b with
      types := alistInsertAll t.refRegs b.types
      constants := alistInsert k (t.refInner, v) b.constants }

/-- `Builder::constant`: `serde_json::to_value(v)` (whose possible failure
is the `ser = none` case) is unwrapped with
`.expect("Tauri Specta failed to serialize constant")`, so a
non-serializable value aborts by panic; otherwise the entry is stored. -/
def Builder.constant (b : Builder) (k : String) (t : ConstTy) (ser : Option Value) :
    Outcome Builder :=
  match ser with
  | none => .diverged "Tauri Specta failed to serialize constant"
  | some v => .ok (b.constantOk k t v)

/-! ## The TypeScript exporter and renderer

`specta_typescript::export_named_datatype` and
`crate::js_ts::render_all_parts` are external to `src/builder.rs`; they
are modelled from the spec (§4.6 Renderer, §6 external interfaces). -/

/-- `specta_typescript::ExportError`, reduced to the failure sources the
export path of `src/builder.rs` can produce: an io error (destination
preparation or write) and a forbidden-bigint render error. -/
inductive ExportError : Type where
  | io
  | bigIntForbidden
deriving DecidableEq, Repr

/-- `specta_typescript::Typescript`: destination path (a list of path
segments; `None` disables file output) and the runtime header prepended
to the generated file. -/
structure Typescript : Type where
  path : Option (List String)
  header : String
deriving DecidableEq, Repr

/-- Modelled from the spec: render a field type reference to TypeScript
source; a stable name is derived from the TypeId (§6), and a bigint-like
primitive is rejected (the reference exporter's default behaviour). -/
def renderTypeRef : TypeRef → Except ExportError String
  | .prim n => .ok n
  | .bigint => .error .bigIntForbidden
  | .ref sid => .ok ("T" ++ toString sid)

/-- Modelled from the spec: render a type definition to TypeScript
source, referencing other declarations by name rather than inlining
them (§4.6 (b)). -/
def renderDataType : DataType → Except ExportError String
  | .prim n => .ok n
  | .bigint => .error .bigIntForbidden
  | .record fields =>
      (fields.mapM (fun p => (renderTypeRef p.2).map (fun s => p.1 ++ ": " ++ s))).map
        (fun l => "\x7b " ++ String.intercalate "; " l ++ " \x7d")
  | .reference sid => .ok ("T" ++ toString sid)

/-- Modelled from the spec: `specta_typescript::export_named_datatype` —
one `export type` declaration per resolved type (§4.6 (b)). -/
def export_named_datatype (language : Typescript) (ndt : NamedDataType)
    (types : TypeMap) : Except ExportError String :=
  (renderDataType ndt.dt).map
    (fun s => "export type " ++ ndt.name ++ " = " ++ s ++ ";")

/-- The `dependant_types` computation of `export_ts` (lines 126-136):
export every entry of the type map in iteration order, collect the
results fallibly, and join them with newlines. -/
def dependantTypes (language : Typescript) (types : TypeMap) :
    Except ExportError String :=
  (types.mapM (fun p => export_named_datatype language p.2 types)).map
    (fun v => String.intercalate "\n" v)

/-- Modelled from the spec: the deterministic wire name of a command under
an optional plugin prefix (§6 namespacing). -/
def wireName (plugin : Option String) (n : String) : String :=
  match plugin with
  | none => n
  | some p => "plugin:" ++ p ++ "|" ++ n

/-- Modelled from the spec: one callable binding per command under its
namespace-qualified wire name (§4.6 (c)). -/
def commandsSection (plugin : Option String) (cmds : List CommandDef) : String :=
  String.join (cmds.map
    (fun c => "export const " ++ c.name ++ " = __cmd(\"" ++ wireName plugin c.name ++ "\");\n"))

/-- Modelled from the spec: one subscription helper per event (§4.6 (d)). -/
def eventsSection (meta : List (String × Nat)) : String :=
  String.join (meta.map
    (fun e => "export const " ++ e.1 ++ " = __evt(\"" ++ e.1 ++ "\");\n"))

/-- Modelled from the spec: one accessor per constant embedding its
precomputed serialized value inline (§4.6 (e)). -/
def staticsSection (statics : List (String × (DataType × Value))) : String :=
  String.join (statics.map
    (fun s => "export const " ++ s.1 ++ " = " ++ renderValue s.2.2 ++ ";\n"))

/-- Modelled from the spec: `crate::ts::GLOBALS` — the fixed
runtime-support preamble (§4.6 (a)). -/
def GLOBALS : String := "// tauri-specta globals\n"

/-- Modelled from the spec: `crate::js_ts::render_all_parts` — assemble
the preamble, type declarations, command bindings, event helpers and
constant accessors in that order (§4.6). -/
def render_all_parts (commands : List CommandDef) (events_meta : List (String × Nat))
    (types : TypeMap) (statics : List (String × (DataType × Value)))
    (language : Typescript) (plugin : Option String)
    (dependant_types : String) (globals : String) : Except ExportError String :=
  .ok (globals ++ "\n" ++ dependant_types ++ "\n"
    ++ commandsSection plugin commands ++ eventsSection events_meta
    ++ staticsSection statics)

/-- Modelled from the spec: the call `(self.commands.1)(&mut self.types)`
(line 118) — register every command's parameter and return types into the
type map and hand back the command list for rendering (§4.3). -/
def commandsExport (defs : List CommandDef) (types : TypeMap) :
    TypeMap × List CommandDef :=
  (defs.foldl (fun acc c => alistInsertAll c.regs acc) types, defs)

/-! ## File system and environment -/

/-- The file system visible to `export_ts`: file contents by path and the
set of existing directories. -/
structure FS : Type where
  files : List (List String × String)
  dirs : List (List String)

/-- Content of the file at `p`, when it exists. -/
def fsLookup (p : List String) (fs : FS) : Option String :=
  alistLookup p fs.files

/-- Write `c` to the file at `p`, creating or fully replacing it. -/
def fsWrite (fs : FS) (p : List String) (c : String) : FS :=
  { fs with files := alistInsert p c fs.files }

/-- `File::create`: create the file at `p`, truncating any existing
content to empty. -/
def fileCreate (fs : FS) (p : List String) : FS :=
  fsWrite fs p ""

/-- `fs::create_dir_all`: ensure the directory `d` exists. -/
def createDirAll (fs : FS) (d : List String) : FS :=
  if d ∈ fs.dirs then fs else { fs with dirs := fs.dirs ++ [d] }

/-- `path.parent()`: the destination path without its final segment. -/
def parentOf (p : List String) : List String :=
  p.dropLast

/-- The environment of one export run: whether directory preparation and
file creation succeed, and the outcome of the external formatter
(`none` is a formatter failure, `some f` a formatter that rewrites the
file's content with `f`). -/
structure Env : Type where
  createDirOk : Bool
  createFileOk : Bool
  formatResult : Option (String → String)

/-- `language.run_format(path).ok()`: best-effort external formatting of
the written file; a failure leaves the file untouched and is discarded. -/
def runFormat (env : Env) (fs : FS) (p : List String) : FS :=
  match env.formatResult with
  | none => fs
  | some f =>
    match fsLookup p fs with
    | none => fs
    | some c => fsWrite fs p (f c)

/-! ## `Builder::export_ts` (lines 106-155) -/

/-- The pure render pipeline of `export_ts`: command type extraction
(line 118), `dependant_types` (lines 126-136) and `render_all_parts`
(lines 138-147), with `&Default::default()` — an empty constant map —
passed as the statics argument (line 142). Returns the mutated type map
and the rendered body or the first error. -/
def renderOutput (b : Builder) (language : Typescript) :
    TypeMap × Except ExportError String :=
  let types2 := (commandsExport b.commands.defs b.types).1
  let cmds := (commandsExport b.commands.defs b.types).2
  match dependantTypes language types2 with
  | .error e => (types2, .error e)
  | .ok dts =>
    match render_all_parts cmds b.events.meta types2 [] language b.plugin_name
        dts GLOBALS with
    | .error e => (types2, .error e)
    | .ok rendered => (types2, .ok rendered)

/-- The observable result of one `export_ts` call: the final file system,
the final builder state, and the returned `Result`. -/
structure ExportResult : Type where
  fs : FS
  builder : Builder
  result : Except ExportError Unit

/-- `Builder::export_ts`: when a destination path is configured, create
the parent directory, create (truncate) the destination file, extract
command types, render, write `header ++ "\n" ++ rendered` and best-effort
format; when no path is configured, do nothing and return `Ok(())`. -/
def Builder.export_ts (env : Env) (fs : FS) (b : Builder) (language : Typescript) :
    ExportResult :=
  match language.path with
  | none => ⟨fs, b, .ok ()⟩
  | some path =>
    if env.createDirOk then
      let fs1 := createDirAll fs (parentOf path)
      if env.createFileOk then
        let fs2 := fileCreate fs1 path
        let b2 := { b with types := (renderOutput b language).1 }
        match (renderOutput b language).2 with
        | .error e => ⟨fs2, b2, .error e⟩
        | .ok rendered =>
          let fs3 := fsWrite fs2 path (language.header ++ "\n" ++ rendered)
          ⟨runFormat env fs3 path, b2, .ok ()⟩
      else ⟨fs1, b, .error .io⟩
    else ⟨fs, b, .error .io⟩

/-- `Builder::export_js_doc`: the body is `todo!()`, which always panics
with "not yet implemented". -/
def Builder.export_js_doc (b : Builder) (language : Typescript) : Outcome Unit :=
  .diverged "not yet implemented"

/-! ## Association-list lemmas -/

theorem alistLookup_insert_self {κ α : Type} [DecidableEq κ] (k : κ) (v : α)
    (m : List (κ × α)) : alistLookup k (alistInsert k v m) = some v := by
  induction m with
  | nil => simp [alistInsert, alistLookup]
  | cons p rest ih =>
    by_cases hp : p.1 = k <;> simp [alistInsert, alistLookup, hp, ih]

theorem alistLookup_insert_ne {κ α : Type} [DecidableEq κ] (k k' : κ) (v : α)
    (m : List (κ × α)) (h : k' ≠ k) :
    alistLookup k' (alistInsert k v m) = alistLookup k' m := by
  induction m with
  | nil => simp [alistInsert, alistLookup, Ne.symm h]
  | cons p rest ih =>
    by_cases hp : p.1 = k
    · simp [alistInsert, alistLookup, hp, Ne.symm h]
    · by_cases hp' : p.1 = k' <;> simp [alistInsert, alistLookup, hp, hp', h, ih]

theorem alistInsert_lookup_eq {κ α : Type} [DecidableEq κ] (k : κ) (v : α)
    (m : List (κ × α)) (h : alistLookup k m = some v) :
    alistInsert k v m = m := by
  induction m with
  | nil => simp [alistLookup] at h
  | cons p rest ih =>
    obtain ⟨pk, pv⟩ := p
    by_cases hp : pk = k
    · simp only [alistLookup, hp, if_pos rfl] at h
      simp only [alistInsert, hp, if_pos rfl]
      simp_all
    · simp only [alistLookup, hp, if_neg hp] at h
      simp only [alistInsert, if_neg hp]
      rw [ih h]

theorem alistInsertAll_of_lookup {κ α : Type} [DecidableEq κ]
    (l : List (κ × α)) (m : List (κ × α))
    (h : ∀ p ∈ l, alistLookup p.1 m = some p.2) :
    alistInsertAll l m = m := by
  induction l with
  | nil => rfl
  | cons p l ih =>
    have h1 : alistInsert p.1 p.2 m = m :=
      alistInsert_lookup_eq _ _ _ (h p (List.mem_cons_self _ _))
    show alistInsertAll l (alistInsert p.1 p.2 m) = m
    rw [h1]
    exact ih fun q hq => h q (List.mem_cons_of_mem _ hq)

theorem alistLookup_insertAll_not_mem {κ α : Type} [DecidableEq κ] (k : κ)
    (l : List (κ × α)) (m : List (κ × α)) (h : k ∉ l.map Prod.fst) :
    alistLookup k (alistInsertAll l m) = alistLookup k m := by
  induction l generalizing m with
  | nil => rfl
  | cons p l ih =>
    simp only [List.map_cons, List.mem_cons, not_or] at h
    show alistLookup k (alistInsertAll l (alistInsert p.1 p.2 m)) = alistLookup k m
    rw [ih _ h.2, alistLookup_insert_ne _ _ _ _ h.1]

theorem alistLookup_insertAll_mem {κ α : Type} [DecidableEq κ]
    (l : List (κ × α)) (m : List (κ × α)) (k : κ) (v : α)
    (hnd : (l.map Prod.fst).Nodup) (hmem : (k, v) ∈ l) :
    alistLookup k (alistInsertAll l m) = some v := by
  induction l generalizing m with
  | nil => simp at hmem
  | cons q l ih =>
    rcases List.mem_cons.mp hmem with hq | hl
    · subst hq
      show alistLookup k (alistInsertAll l (alistInsert k v m)) = some v
      have hk : k ∉ l.map Prod.fst := by
        simpa using (List.nodup_cons.mp hnd).1
      rw [alistLookup_insertAll_not_mem _ _ _ hk, alistLookup_insert_self]
    · exact ih _ (List.nodup_cons.mp hnd).2 hl

theorem alistInsert_map_fst {κ α : Type} [DecidableEq κ] (k : κ) (v : α)
    (m : List (κ × α)) :
    (alistInsert k v m).map Prod.fst =
      if k ∈ m.map Prod.fst then m.map Prod.fst else m.map Prod.fst ++ [k] := by
  induction m with
  | nil => simp [alistInsert]
  | cons p rest ih =>
    by_cases hp : p.1 = k
    · simp [alistInsert, hp]
    · by_cases hk : k ∈ rest.map Prod.fst <;>
        simp [alistInsert, hp, hk, ih, Ne.symm hp]

theorem alistInsert_keysNodup {κ α : Type} [DecidableEq κ] (k : κ) (v : α)
    (m : List (κ × α)) (h : (m.map Prod.fst).Nodup) :
    ((alistInsert k v m).map Prod.fst).Nodup := by
  rw [alistInsert_map_fst]
  by_cases hk : k ∈ m.map Prod.fst
  · simpa [hk] using h
  · simp only [hk, if_neg, ite_false]
    exact List.Nodup.append h (List.nodup_singleton k)
      (by simpa [List.disjoint_singleton] using hk)

theorem alistInsertAll_keysNodup {κ α : Type} [DecidableEq κ]
    (l : List (κ × α)) (m : List (κ × α)) (h : (m.map Prod.fst).Nodup) :
    ((alistInsertAll l m).map Prod.fst).Nodup := by
  induction l generalizing m with
  | nil => exact h
  | cons p l ih =>
    exact ih _ (alistInsert_keysNodup p.1 p.2 m h)

theorem countKey_eq_zero_of_not_mem {κ α : Type} [DecidableEq κ] (k : κ)
    (m : List (κ × α)) (h : k ∉ m.map Prod.fst) : countKey k m = 0 := by
  induction m with
  | nil => rfl
  | cons p rest ih =>
    simp only [List.map_cons, List.mem_cons, not_or] at h
    simp [countKey, Ne.symm h.1, ih h.2]

theorem countKey_insert_self {κ α : Type} [DecidableEq κ] (k : κ) (v : α)
    (m : List (κ × α)) (h : (m.map Prod.fst).Nodup) :
    countKey k (alistInsert k v m) = 1 := by
  induction m with
  | nil => simp [alistInsert, countKey]
  | cons p rest ih =>
    rw [List.map_cons] at h
    have h1 := (List.nodup_cons.mp h).1
    have h2 := (List.nodup_cons.mp h).2
    by_cases hp : p.1 = k
    · have hk : k ∉ rest.map Prod.fst := by rw [hp] at h1; exact h1
      simp [alistInsert, countKey, hp,
        countKey_eq_zero_of_not_mem _ _ hk]
    · simp [alistInsert, countKey, hp, ih h2]

/-! ## File-system lemmas -/

theorem fsLookup_fsWrite_self (fs : FS) (p : List String) (c : String) :
    fsLookup p (fsWrite fs p c) = some c :=
  alistLookup_insert_self p c fs.files

theorem fsWrite_dirs (fs : FS) (p : List String) (c : String) :
    (fsWrite fs p c).dirs = fs.dirs := rfl

theorem mem_createDirAll_self (fs : FS) (d : List String) :
    d ∈ (createDirAll fs d).dirs := by
  unfold createDirAll
  by_cases h : d ∈ fs.dirs
  · simp [h]
  · simp [h]

/-! ## `export_ts` case lemmas -/

theorem export_ts_success_eq (env : Env) (fs : FS) (b : Builder)
    (language : Typescript) (p : List String) (r : String)
    (hp : language.path = some p) (hd : env.createDirOk = true)
    (hf : env.createFileOk = true) (hfmt : env.formatResult = none)
    (hr : (renderOutput b language).2 = Except.ok r) :
    Builder.export_ts env fs b language =
      ⟨fsWrite (fileCreate (createDirAll fs (parentOf p)) p) p
          (language.header ++ "\n" ++ r),
        { b with types := (renderOutput b language).1 }, Except.ok ()⟩ := by
  unfold Builder.export_ts
  rw [hp]
  simp [hd, hf, hr, runFormat, hfmt]

theorem export_ts_render_error_eq (env : Env) (fs : FS) (b : Builder)
    (language : Typescript) (p : List String) (e : ExportError)
    (hp : language.path = some p) (hd : env.createDirOk = true)
    (hf : env.createFileOk = true)
    (hr : (renderOutput b language).2 = Except.error e) :
    Builder.export_ts env fs b language =
      ⟨fileCreate (createDirAll fs (parentOf p)) p,
        { b with types := (renderOutput b language).1 }, Except.error e⟩ := by
  unfold Builder.export_ts
  rw [hp]
  simp [hd, hf, hr]

theorem export_ts_dir_error_eq (env : Env) (fs : FS) (b : Builder)
    (language : Typescript) (p : List String)
    (hp : language.path = some p) (hd : env.createDirOk = false) :
    Builder.export_ts env fs b language = ⟨fs, b, Except.error ExportError.io⟩ := by
  unfold Builder.export_ts
  rw [hp]
  simp [hd]

theorem export_ts_file_error_eq (env : Env) (fs : FS) (b : Builder)
    (language : Typescript) (p : List String)
    (hp : language.path = some p) (hd : env.createDirOk = true)
    (hf : env.createFileOk = false) :
    Builder.export_ts env fs b language =
      ⟨createDirAll fs (parentOf p), b, Except.error ExportError.io⟩ := by
  unfold Builder.export_ts
  rw [hp]
  simp [hd, hf]

theorem export_ts_no_path_eq (env : Env) (fs : FS) (b : Builder)
    (language : Typescript) (hp : language.path = none) :
    Builder.export_ts env fs b language = ⟨fs, b, Except.ok ()⟩ := by
  unfold Builder.export_ts
  rw [hp]

/-- A helper: on a fully successful pipeline the returned `Result` is
`Ok(())` for every formatter outcome, since `run_format(..).ok()`
discards the formatter's result. -/
theorem export_ts_success_result (env : Env) (fs : FS) (b : Builder)
    (language : Typescript) (p : List String) (r : String)
    (hp : language.path = some p) (hd : env.createDirOk = true)
    (hf : env.createFileOk = true)
    (hr : (renderOutput b language).2 = Except.ok r) :
    (Builder.export_ts env fs b language).result = Except.ok () := by
  unfold Builder.export_ts
  rw [hp]
  simp [hd, hf, hr]

/-! ## Concrete fixtures used by witnesses and counterexamples -/

/-- An environment in which destination preparation succeeds and the
external formatter fails. -/
def envPlain : Env := ⟨true, true, none⟩

/-- A TypeScript configuration with a destination path and a header. -/
def tsConfig : Typescript := ⟨some ["out", "bindings.ts"], "// my header"⟩

/-- An empty file system. -/
def fsEmpty : FS := ⟨[], []⟩

/-- A file system that already holds content at the destination path. -/
def fsOld : FS := ⟨[(["out", "bindings.ts"], "OLD CONTENT")], []⟩

/-- The serialized constant value of the spec's round-trip scenario. -/
def vCount : Value := .obj [("count", .num 3)]

/-- The record type of the spec's round-trip scenario. -/
def ctCount : ConstTy := ⟨.record [("count", .prim "number")], []⟩

/-- The builder after successfully registering the round-trip constant. -/
def bCount : Builder := Builder.new.constantOk "count_const" ctCount vCount

/-- A builder holding one registered type the TypeScript exporter
rejects, so that rendering fails. -/
def bBig : Builder := Builder.new.ty ⟨7, ⟨"Big", .bigint⟩, []⟩

/-- A named type with one dependency registration, for the idempotence
witness. -/
def tyFoo : TyDesc := ⟨1, ⟨"Foo", .prim "number"⟩, [(2, ⟨"Dep", .prim "string"⟩)]⟩

/-! ## Claims -/

/-- C1 (code bug): `Builder::constant` stores the serialized value in
`self.constants`, and the modelled renderer would emit an accessor whose
embedded serialized value is `\x7b"count":3\x7d`; but `export_ts` passes
`&Default::default()` — an empty map — as the statics argument of
`render_all_parts` (builder.rs line 142, `TODO: fix statics`) instead of
`self.constants`, so the successful export's output is byte-identical to
the output of a builder with no constant at all: the accessor demanded by
the claim is absent. -/
theorem constant_accessor_missing_from_export :
    Builder.constant Builder.new "count_const" ctCount (some vCount) = Outcome.ok bCount
    ∧ alistLookup "count_const" bCount.constants = some (ctCount.refInner, vCount)
    ∧ staticsSection bCount.constants
        = "export const count_const = \x7b\"count\":3\x7d;\n"
    ∧ (Builder.export_ts envPlain fsEmpty bCount tsConfig).result = Except.ok ()
    ∧ fsLookup ["out", "bindings.ts"] (Builder.export_ts envPlain fsEmpty bCount tsConfig).fs
        = fsLookup ["out", "bindings.ts"]
            (Builder.export_ts envPlain fsEmpty Builder.new tsConfig).fs :=
  ⟨rfl, rfl, rfl, rfl, rfl⟩

/-- C2 counterexample: a constant whose value cannot be serialized does
not produce an error outcome — the registration aborts by panic with the
`expect` message of builder.rs line 81. -/
theorem constant_serialize_failure_not_error_outcome :
    Builder.constant Builder.new "bad_const" ⟨.prim "number", []⟩ none
      = Outcome.diverged "Tauri Specta failed to serialize constant" := rfl

/-- C2 (amended): for every builder and constant name, a registration
whose value cannot be serialized aborts by panic with the message
"Tauri Specta failed to serialize constant" — the failure is loud and the
failed registration mutates nothing, but it is a panic, not an error
return. -/
theorem constant_serialize_failure_diverges (b : Builder) (k : String) (t : ConstTy) :
    Builder.constant b k t none
      = Outcome.diverged "Tauri Specta failed to serialize constant" := rfl

/-- C5: `Builder::commands` replaces the whole previously registered
command set: registering `A` then `B` yields a builder state equal to
registering only `B`, the registered set is exactly `B`, and a command
name present only in `A` is absent from the command list handed to the
renderer at export. -/
theorem setCommands_last_wins (b : Builder) (A B : Commands) (n : String) :
    (b.setCommands A).setCommands B = b.setCommands B
    ∧ ((b.setCommands A).setCommands B).commands = B
    ∧ (n ∈ A.defs.map CommandDef.name → n ∉ B.defs.map CommandDef.name →
        n ∉ (commandsExport ((b.setCommands A).setCommands B).commands.defs
              ((b.setCommands A).setCommands B).types).2.map CommandDef.name) := by
  refine ⟨rfl, rfl, ?_⟩
  intro hA hB
  simpa [commandsExport, Builder.setCommands] using hB

/-- C5 witness: registering `foo` then `bar` leaves exactly `bar`
registered, and `foo` is absent from the exported command list. -/
theorem setCommands_last_wins_witness :
    (Builder.new.setCommands ⟨[⟨"foo", []⟩]⟩).setCommands ⟨[⟨"bar", []⟩]⟩
        = Builder.new.setCommands ⟨[⟨"bar", []⟩]⟩
    ∧ ((Builder.new.setCommands ⟨[⟨"foo", []⟩]⟩).setCommands ⟨[⟨"bar", []⟩]⟩).commands
        = ⟨[⟨"bar", []⟩]⟩
    ∧ "foo" ∉ (commandsExport
          ((Builder.new.setCommands ⟨[⟨"foo", []⟩]⟩).setCommands ⟨[⟨"bar", []⟩]⟩).commands.defs
          ((Builder.new.setCommands ⟨[⟨"foo", []⟩]⟩).setCommands ⟨[⟨"bar", []⟩]⟩).types).2.map
          CommandDef.name := by
  have h := setCommands_last_wins Builder.new ⟨[⟨"foo", []⟩]⟩ ⟨[⟨"bar", []⟩]⟩ "foo"
  exact ⟨h.1, h.2.1, h.2.2 (by decide) (by decide)⟩

/-- C9: `export_ts` with a language configuration whose path is `None`
skips the whole `if let Some(path)` block: it returns `Ok(())`, writes no
file, creates no directory, and leaves the builder untouched. -/
theorem export_ts_no_path_no_side_effects (env : Env) (fs : FS) (b : Builder)
    (language : Typescript) (hp : language.path = none) :
    Builder.export_ts env fs b language = ⟨fs, b, Except.ok ()⟩ :=
  export_ts_no_path_eq env fs b language hp

/-- C9 witness: a pathless export of the fresh builder changes nothing. -/
theorem export_ts_no_path_no_side_effects_witness :
    Builder.export_ts envPlain fsEmpty Builder.new ⟨none, "// my header"⟩
      = ⟨fsEmpty, Builder.new, Except.ok ()⟩ :=
  export_ts_no_path_no_side_effects envPlain fsEmpty Builder.new
    ⟨none, "// my header"⟩ rfl

/-- C10: `export_js_doc` is `todo!()`: for every builder state and every
language configuration it panics with "not yet implemented" and never
returns normally. -/
theorem export_js_doc_always_diverges (b : Builder) (language : Typescript) :
    Builder.export_js_doc b language = Outcome.diverged "not yet implemented" :=
  rfl

/-- C3 counterexample: with `OLD CONTENT` previously at the destination,
an export whose rendering fails (a registered bigint type) returns an
error, yet the destination file is neither the complete output nor the
previous content: `File::create` (line 115) already truncated it to the
empty string before rendering ran. -/
theorem export_render_error_clobbers_previous_file :
    (Builder.export_ts envPlain fsOld bBig tsConfig).result
        = Except.error ExportError.bigIntForbidden
    ∧ fsLookup ["out", "bindings.ts"] fsOld = some "OLD CONTENT"
    ∧ fsLookup ["out", "bindings.ts"] (Builder.export_ts envPlain fsOld bBig tsConfig).fs
        = some "" :=
  ⟨rfl, rfl, rfl⟩

/-- C3 (amended): when an error occurs after destination preparation (a
render failure), the error is returned, but the destination file has
already been created and truncated: the export leaves it empty, losing
any previous content, because `File::create` runs before rendering. -/
theorem export_render_error_leaves_truncated_file (env : Env) (fs : FS)
    (b : Builder) (language : Typescript) (p : List String) (e : ExportError)
    (hp : language.path = some p) (hd : env.createDirOk = true)
    (hf : env.createFileOk = true)
    (hr : (renderOutput b language).2 = Except.error e) :
    (Builder.export_ts env fs b language).result = Except.error e
    ∧ fsLookup p (Builder.export_ts env fs b language).fs = some "" := by
  rw [export_ts_render_error_eq env fs b language p e hp hd hf hr]
  exact ⟨rfl, fsLookup_fsWrite_self _ _ _⟩

/-- C3 witness: the amended claim at the bigint builder over the
pre-populated file system. -/
theorem export_render_error_leaves_truncated_file_witness :
    (Builder.export_ts envPlain fsOld bBig tsConfig).result
        = Except.error ExportError.bigIntForbidden
    ∧ fsLookup ["out", "bindings.ts"] (Builder.export_ts envPlain fsOld bBig tsConfig).fs
        = some "" :=
  export_render_error_leaves_truncated_file envPlain fsOld bBig tsConfig
    ["out", "bindings.ts"] ExportError.bigIntForbidden rfl rfl rfl rfl

/-- A helper: the returned `Result` of `export_ts` does not depend on the
formatter outcome in the environment — two environments agreeing on
destination preparation yield the same `Result`. -/
theorem export_ts_result_ignores_formatter (env env' : Env) (fs : FS)
    (b : Builder) (language : Typescript)
    (h1 : env.createDirOk = env'.createDirOk)
    (h2 : env.createFileOk = env'.createFileOk) :
    (Builder.export_ts env fs b language).result
      = (Builder.export_ts env' fs b language).result := by
  cases hpath : language.path with
  | none =>
    rw [export_ts_no_path_eq env fs b language hpath,
      export_ts_no_path_eq env' fs b language hpath]
  | some p =>
    cases hd : env.createDirOk with
    | false =>
      rw [export_ts_dir_error_eq env fs b language p hpath hd,
        export_ts_dir_error_eq env' fs b language p hpath (h1 ▸ hd)]
    | true =>
      cases hf : env.createFileOk with
      | false =>
        rw [export_ts_file_error_eq env fs b language p hpath hd hf,
          export_ts_file_error_eq env' fs b language p hpath (h1 ▸ hd) (h2 ▸ hf)]
      | true =>
        cases hr : (renderOutput b language).2 with
        | error e =>
          rw [export_ts_render_error_eq env fs b language p e hpath hd hf hr,
            export_ts_render_error_eq env' fs b language p e hpath (h1 ▸ hd) (h2 ▸ hf) hr]
        | ok r =>
          rw [export_ts_success_result env fs b language p r hpath hd hf hr,
            export_ts_success_result env' fs b language p r hpath (h1 ▸ hd) (h2 ▸ hf) hr]

/-- C4: the export result is the same whether the external formatter
fails or not (its outcome is discarded by `.ok()`); when preparation and
rendering succeed the export returns `Ok(())` with the written content
kept, while a directory-preparation failure, a file-creation failure and
a render failure are each surfaced to the caller as a typed error. -/
theorem export_ts_formatter_failure_harmless (env : Env) (fs : FS) (b : Builder)
    (language : Typescript) :
    ((Builder.export_ts { env with formatResult := none } fs b language).result
        = (Builder.export_ts env fs b language).result)
    ∧ (∀ p, language.path = some p →
        ((∀ r, env.formatResult = none → env.createDirOk = true →
            env.createFileOk = true →
            (renderOutput b language).2 = Except.ok r →
            (Builder.export_ts env fs b language).result = Except.ok ()
            ∧ fsLookup p (Builder.export_ts env fs b language).fs
                = some (language.header ++ "\n" ++ r))
        ∧ (env.createDirOk = false →
            (Builder.export_ts env fs b language).result = Except.error ExportError.io)
        ∧ (env.createDirOk = true → env.createFileOk = false →
            (Builder.export_ts env fs b language).result = Except.error ExportError.io)
        ∧ (∀ e, env.createDirOk = true → env.createFileOk = true →
            (renderOutput b language).2 = Except.error e →
            (Builder.export_ts env fs b language).result = Except.error e))) := by
  constructor
  · exact export_ts_result_ignores_formatter { env with formatResult := none } env
      fs b language rfl rfl
  · intro p hp
    refine ⟨?_, ?_, ?_, ?_⟩
    · intro r hfmt hd hf hr
      rw [export_ts_success_eq env fs b language p r hp hd hf hfmt hr]
      exact ⟨rfl, fsLookup_fsWrite_self _ _ _⟩
    · intro hd
      rw [export_ts_dir_error_eq env fs b language p hp hd]
    · intro hd hf
      rw [export_ts_file_error_eq env fs b language p hp hd hf]
    · intro e hd hf hr
      rw [export_ts_render_error_eq env fs b language p e hp hd hf hr]

/-- C4 witness: over the empty file system and the fresh builder, the
formatter-failing environment exports successfully and keeps the written
content. -/
theorem export_ts_formatter_failure_harmless_witness :
    ((Builder.export_ts { envPlain with formatResult := none } fsEmpty Builder.new tsConfig).result
        = (Builder.export_ts envPlain fsEmpty Builder.new tsConfig).result)
    ∧ (Builder.export_ts envPlain fsEmpty Builder.new tsConfig).result = Except.ok ()
    ∧ fsLookup ["out", "bindings.ts"]
        (Builder.export_ts envPlain fsEmpty Builder.new tsConfig).fs
        = some ("// my header" ++ "\n" ++ "// tauri-specta globals\n\n\n") := by
  have h := export_ts_formatter_failure_harmless envPlain fsEmpty Builder.new tsConfig
  have h1 := (h.2 ["out", "bindings.ts"] rfl).1 "// tauri-specta globals\n\n\n"
    rfl rfl rfl rfl
  exact ⟨h.1, h1.1, h1.2⟩

/-- C6: `Builder::ty` is idempotent — for a type whose stable id does not
collide with its dependency registrations, registering it twice yields
the same builder state as registering it once, and the type table then
holds exactly one definition under the type's id. -/
theorem ty_idempotent (b : Builder) (t : TyDesc)
    (hb : (b.types.map Prod.fst).Nodup)
    (hr : (t.defRegs.map Prod.fst).Nodup)
    (hs : t.sid ∉ t.defRegs.map Prod.fst) :
    (b.ty t).ty t = b.ty t
    ∧ countKey t.sid ((b.ty t).ty t).types = 1 := by
  have hM0 : ((alistInsertAll t.defRegs b.types).map Prod.fst).Nodup :=
    alistInsertAll_keysNodup _ _ hb
  have step1 : alistInsertAll t.defRegs
      (alistInsert t.sid t.ndt (alistInsertAll t.defRegs b.types))
      = alistInsert t.sid t.ndt (alistInsertAll t.defRegs b.types) := by
    apply alistInsertAll_of_lookup
    intro q hq
    have hq1 : q.1 ≠ t.sid := by
      intro hcontra
      exact hs (hcontra ▸ List.mem_map_of_mem Prod.fst hq)
    rw [alistLookup_insert_ne _ _ _ _ hq1]
    exact alistLookup_insertAll_mem _ _ _ _ hr (by simpa using hq)
  have step2 : alistInsert t.sid t.ndt
      (alistInsert t.sid t.ndt (alistInsertAll t.defRegs b.types))
      = alistInsert t.sid t.ndt (alistInsertAll t.defRegs b.types) :=
    alistInsert_lookup_eq _ _ _ (alistLookup_insert_self _ _ _)
  have hstate : (b.ty t).ty t = b.ty t := by
    simp only [Builder.ty]
    rw [step1, step2]
  refine ⟨hstate, ?_⟩
  rw [hstate]
  show countKey t.sid (alistInsert t.sid t.ndt (alistInsertAll t.defRegs b.types)) = 1
  exact countKey_insert_self _ _ _ hM0

/-- C6 witness: registering the concrete type `Foo` (id 1, one dependency
`Dep` under id 2) twice on the fresh builder equals registering it once,
with exactly one table entry under id 1. -/
theorem ty_idempotent_witness :
    (Builder.new.ty tyFoo).ty tyFoo = Builder.new.ty tyFoo
    ∧ countKey tyFoo.sid ((Builder.new.ty tyFoo).ty tyFoo).types = 1 :=
  ty_idempotent Builder.new tyFoo (by decide) (by decide) (by decide)

/-- C7: rendering is deterministic — two successful exports of the same
builder content and language configuration, over arbitrary (possibly
different) file systems and environments, write byte-identical output to
the destination. -/
theorem export_ts_deterministic (env1 env2 : Env) (fs1 fs2 : FS) (b : Builder)
    (language : Typescript) (p : List String) (r : String)
    (hp : language.path = some p)
    (hd1 : env1.createDirOk = true) (hf1 : env1.createFileOk = true)
    (hfmt1 : env1.formatResult = none)
    (hd2 : env2.createDirOk = true) (hf2 : env2.createFileOk = true)
    (hfmt2 : env2.formatResult = none)
    (hr : (renderOutput b language).2 = Except.ok r) :
    fsLookup p (Builder.export_ts env1 fs1 b language).fs
      = fsLookup p (Builder.export_ts env2 fs2 b language).fs
    ∧ fsLookup p (Builder.export_ts env1 fs1 b language).fs
      = some (language.header ++ "\n" ++ r) := by
  rw [export_ts_success_eq env1 fs1 b language p r hp hd1 hf1 hfmt1 hr,
    export_ts_success_eq env2 fs2 b language p r hp hd2 hf2 hfmt2 hr]
  rw [fsLookup_fsWrite_self, fsLookup_fsWrite_self]
  exact ⟨rfl, rfl⟩

/-- C7 witness: exporting the fresh builder over the empty file system
and over a pre-populated one writes the same bytes. -/
theorem export_ts_deterministic_witness :
    fsLookup ["out", "bindings.ts"] (Builder.export_ts envPlain fsEmpty Builder.new tsConfig).fs
      = fsLookup ["out", "bindings.ts"] (Builder.export_ts envPlain fsOld Builder.new tsConfig).fs
    ∧ fsLookup ["out", "bindings.ts"] (Builder.export_ts envPlain fsEmpty Builder.new tsConfig).fs
      = some ("// my header" ++ "\n" ++ "// tauri-specta globals\n\n\n") :=
  export_ts_deterministic envPlain envPlain fsEmpty fsOld Builder.new tsConfig
    ["out", "bindings.ts"] "// tauri-specta globals\n\n\n"
    rfl rfl rfl rfl rfl rfl rfl rfl

/-- C8: a successful export with a configured destination writes exactly
one file there whose content is the configured header, a newline, and the
rendered body; the parent directory is created, and whatever was at the
path before is replaced by that content. -/
theorem export_ts_writes_header_then_body (env : Env) (fs : FS) (b : Builder)
    (language : Typescript) (p : List String) (r : String)
    (hp : language.path = some p) (hd : env.createDirOk = true)
    (hf : env.createFileOk = true) (hfmt : env.formatResult = none)
    (hr : (renderOutput b language).2 = Except.ok r) :
    fsLookup p (Builder.export_ts env fs b language).fs
        = some (language.header ++ "\n" ++ r)
    ∧ parentOf p ∈ (Builder.export_ts env fs b language).fs.dirs
    ∧ (Builder.export_ts env fs b language).result = Except.ok () := by
  rw [export_ts_success_eq env fs b language p r hp hd hf hfmt hr]
  refine ⟨fsLookup_fsWrite_self _ _ _, ?_, rfl⟩
  show parentOf p ∈ (createDirAll fs (parentOf p)).dirs
  exact mem_createDirAll_self _ _

/-- C8 witness: exporting over a file system whose destination already
holds `OLD CONTENT` replaces it with header-then-body and creates the
parent directory. -/
theorem export_ts_writes_header_then_body_witness :
    fsLookup ["out", "bindings.ts"] (Builder.export_ts envPlain fsOld Builder.new tsConfig).fs
        = some ("// my header" ++ "\n" ++ "// tauri-specta globals\n\n\n")
    ∧ parentOf ["out", "bindings.ts"]
        ∈ (Builder.export_ts envPlain fsOld Builder.new tsConfig).fs.dirs
    ∧ (Builder.export_ts envPlain fsOld Builder.new tsConfig).result = Except.ok () :=
  export_ts_writes_header_then_body envPlain fsOld Builder.new tsConfig
    ["out", "bindings.ts"] "// tauri-specta globals\n\n\n" rfl rfl rfl rfl rfl

end TauriSpecta
